import Mathlib

/-!
Verification of the OpenAPI request/response validation middleware
(`aws_lambda_powertools/event_handler/middlewares/openapi_validation.py`).

The Python module is shallowly embedded: JSON-like runtime values become the
inductive `Value`, Python dicts become association lists with first-match
lookup and insert-or-replace assignment, field descriptors (`ModelField` /
`FieldInfo`) become the structure `ModelField`, and each helper function of
the module becomes a Lean definition of the same name (camel-cased).
-/

set_option autoImplicit false

namespace OpenAPIValidation

/-- A JSON-like runtime value: the payloads the middleware moves around
(Python `None` is `null`, dicts are `obj`, lists are `list`). -/
inductive Value where
  | null
  | str (s : String)
  | int (n : Int)
  | bool (b : Bool)
  | list (xs : List Value)
  | obj (kvs : List (String × Value))

/-- The Python `value is None` test. -/
def Value.isNull : Value → Bool
  | .null => true
  | _ => false

/-- The Python `isinstance(value, list)` test. -/
def Value.isList : Value → Bool
  | .list _ => true
  | _ => false

/-- The Python `isinstance(value, dict)` test (a dict exposes `.get`). -/
def Value.isObj : Value → Bool
  | .obj _ => true
  | _ => false

/-- One step of an error location (`loc` tuples mix strings and ints: the
JSON decode error uses the byte offset as the second member). -/
inductive LocItem where
  | str (s : String)
  | nat (n : Nat)
deriving DecidableEq

/-- An error location: the `loc` tuple of an error record. -/
abbrev Loc := List LocItem

/-- A canonical error record `{type, loc, msg, input, ctx}` as built by the
middleware (`json_invalid` records carry the decoder message in `ctx`). -/
structure Err where
  type : String
  loc : Loc
  msg : String
  input : Value
  ctx : Option String

/-- A Python dict with string keys, embedded as an association list;
lookup returns the first binding, assignment replaces the first binding. -/
abbrev ValueMap := List (String × Value)

/-- First-match lookup, `none` when the key is absent (`dict[k]` / `KeyError`
discipline). -/
def lookupMap : ValueMap → String → Option Value
  | [], _ => none
  | (k, v) :: rest, a => if k = a then some v else lookupMap rest a

/-- `dict.get(k)`: the stored value, or Python `None` (our `Value.null`) when
the key is absent.  A stored `None` and an absent key are indistinguishable
through this accessor, exactly as in Python. -/
def getOrNone (m : ValueMap) (k : String) : Value :=
  (lookupMap m k).getD Value.null

/-- `dict[k] = v`: replace the first binding of `k`, or append a new one. -/
def setKey : ValueMap → String → Value → ValueMap
  | [], k, v => [(k, v)]
  | (k', v') :: rest, k, v =>
      if k' = k then (k, v) :: rest else (k', v') :: setKey rest k v

/-- `base.update(upd)`: assign every binding of `upd` into `base`, in order. -/
def updateMap (base : ValueMap) (upd : ValueMap) : ValueMap :=
  upd.foldl (fun acc kv => setKey acc kv.1 kv.2) base

/-- The parameter source (`field_info.in_`); `value` is the string used in
error locations. -/
inductive Source where
  | path
  | query
  | header
deriving DecidableEq

/-- `field_info.in_.value`. -/
def Source.value : Source → String
  | .path => "path"
  | .query => "query"
  | .header => "header"

/-- The slice of a pydantic sub-field's `FieldInfo` that
`_process_model_param` reads: its optional alias and whether its annotation
is a sequence type. -/
structure SubFieldInfo where
  aliasOpt : Option String
  isSequence : Bool

/-- A field descriptor (`ModelField` plus the parts of its `field_info` the
middleware inspects).  `validate` is the descriptor-supplied validation
capability `field.validate(value, loc) -> (validated_value, errors)`;
`isSequence` is `field_annotation_is_sequence(annotation)`, `isScalar` is
`is_scalar_field(field)`, `isModel` is
`lenient_issubclass(annotation, BaseModel)` with `modelFields` the model's
`model_fields` and `populateByName` its
`validate_by_name`/`populate_by_name` config, `embed` is
`getattr(field_info, "embed", None)`, and `serialize` the descriptor's
serializer. -/
structure ModelField where
  name : String
  aliasName : String
  required : Bool
  default : Value
  source : Source
  isSequence : Bool
  isScalar : Bool
  isModel : Bool
  modelFields : List (String × SubFieldInfo)
  populateByName : Bool
  embed : Bool
  validate : Value → Loc → Value × List Err
  serialize : Value → Value

/-- The per-route field-descriptor groups (`route.dependant`). -/
structure Route where
  pathParams : List ModelField
  queryParams : List ModelField
  headerParams : List ModelField
  bodyParams : List ModelField

/-- A JSON decode failure (`json.JSONDecodeError`): character offset `pos`,
message `msg`, and the offending document `doc`. -/
structure JsonDecodeError where
  pos : Nat
  msg : String
  doc : String

/-- The request data the middleware reads off the event: the plain header
dict (for content-type sniffing), the outcome of `json_body` (the standard
JSON decoder is external, so its result is given), the `parse_qs` result of
the decoded body (again library-computed), and the resolved path / query /
header parameter maps. -/
structure RequestEvent where
  headers : List (String × String)
  jsonBody : Except JsonDecodeError Value
  formParsed : ValueMap
  routeArgs : ValueMap
  resolvedQuery : ValueMap
  resolvedHeaders : ValueMap

/-- `headers.get(name, "")`. -/
def headerGet : List (String × String) → String → String
  | [], _ => ""
  | (k, v) :: rest, a => if k = a then v else headerGet rest a

/-- Python `str.strip()`: drop whitespace from both ends. -/
def pyStrip (s : String) : String :=
  ⟨((s.data.dropWhile Char.isWhitespace).reverse.dropWhile Char.isWhitespace).reverse⟩

/-- Python `str.startswith(pre)`. -/
def pyStartsWith (s pre : String) : Bool :=
  pre.data.isPrefixOf s.data

/-- Modelled from the spec (the compat helper `get_missing_field_error` is
not part of the sources): a canonical "missing field" record at `loc`; the
spec's wire example is `{"loc": [source, alias], "type": "missing"}`. -/
def getMissingFieldError (loc : Loc) : Err :=
  { type := "missing", loc := loc, msg := "Field required", input := Value.null, ctx := none }

/-- Modelled from the spec (compat helper `_regenerate_error_with_loc` is
not part of the sources): the Error Aggregator rewrites each record's
location relative to a caller-supplied prefix, prepending it. -/
def regenerateErrorWithLoc (errors : List Err) (locPrefix : Loc) : List Err :=
  errors.map fun e => { e with loc := locPrefix ++ e.loc }

/-- Modelled from the spec (compat helper `_normalize_errors` is not part of
the sources): the Error Aggregator normalizes heterogeneous records into the
canonical list, preserving order and count; our records are already in the
canonical shape, so each is kept as-is. -/
def normalizeErrors (errors : List Err) : List Err :=
  errors.map fun e => e

/-- `_validate_field`: run the descriptor's validation and append the
processed errors (prefix `()`) to the existing list; returns the validated
value paired with the grown error list. -/
def validateField (field : ModelField) (value : Value) (loc : Loc)
    (existingErrors : List Err) : Value × List Err :=
  let r := field.validate value loc
  (r.1, existingErrors ++ regenerateErrorWithLoc r.2 [])

/-- `_handle_missing_field_value`: required fields emit a "missing field"
error at `loc`; optional fields store their default under the field name. -/
def handleMissingFieldValue (field : ModelField) (values : ValueMap)
    (errors : List Err) (loc : Loc) : ValueMap × List Err :=
  if field.required then (values, errors ++ [getMissingFieldError loc])
  else (setKey values field.name field.default, errors)

/-- The loop body of `_request_params_to_args`: location `(source, alias)`,
value via `received_params.get(alias)`; `None` triggers the missing-field
policy, otherwise the value is validated and stored under the field name. -/
def paramStep (receivedParams : ValueMap) (acc : ValueMap × List Err)
    (field : ModelField) : ValueMap × List Err :=
  let loc : Loc := [.str field.source.value, .str field.aliasName]
  let value := getOrNone receivedParams field.aliasName
  if value.isNull then handleMissingFieldValue field acc.1 acc.2 loc
  else
    let r := validateField field value loc acc.2
    (setKey acc.1 field.name r.1, r.2)

/-- `_request_params_to_args`: fold the per-field step over the descriptor
list, starting from empty values and errors.  (The `isinstance(field_info,
Param)` assertion always passes here: every parameter descriptor carries a
`Source`.) -/
def requestParamsToArgs (requiredParams : List ModelField)
    (receivedParams : ValueMap) : ValueMap × List Err :=
  requiredParams.foldl (paramStep receivedParams) ([], [])

/-- `_get_body_field_location`: `("body",)` when the field alias is omitted,
`("body", alias)` otherwise. -/
def getBodyFieldLocation (field : ModelField) (fieldAliasOmitted : Bool) : Loc :=
  if fieldAliasOmitted then [.str "body"] else [.str "body", .str field.aliasName]

/-- `_get_embed_body`: with exactly one body field that does not request
explicit embedding, wrap the received body under that field's alias and
report the alias as omitted. -/
def getEmbedBody (field : ModelField) (requiredParams : List ModelField)
    (receivedBody : Value) : Value × Bool :=
  let fieldAliasOmitted := requiredParams.length = 1 && !field.embed
  if fieldAliasOmitted then (Value.obj [(field.aliasName, receivedBody)], true)
  else (receivedBody, false)

/-- `_extract_field_value_from_body`: `None` body gives `None`; a dict body
is read with `.get(alias)`; any other body has no `.get`, so the
`AttributeError` is turned into a "missing field" error and `None`. -/
def extractFieldValueFromBody (field : ModelField) (receivedBody : Value)
    (loc : Loc) (errors : List Err) : Value × List Err :=
  match receivedBody with
  | .null => (.null, errors)
  | .obj kvs => (getOrNone kvs field.aliasName, errors)
  | _ => (.null, errors ++ [getMissingFieldError loc])

/-- `_normalize_field_value`: sequence-typed fields keep their value; for
any other field a non-empty list is replaced by its first element. -/
def normalizeFieldValue (value : Value) (fieldIsSequence : Bool) : Value :=
  if fieldIsSequence then value
  else
    match value with
    | .list (x :: _) => x
    | _ => value

/-- The loop body of `_request_body_to_args`: location from the
alias-omitted flag, extraction (with its `AttributeError` policy), then the
missing-field policy on `None`, otherwise normalization and validation. -/
def bodyStep (receivedBody : Value) (fieldAliasOmitted : Bool)
    (acc : ValueMap × List Err) (field : ModelField) : ValueMap × List Err :=
  let loc := getBodyFieldLocation field fieldAliasOmitted
  let e := extractFieldValueFromBody field receivedBody loc acc.2
  if e.1.isNull then handleMissingFieldValue field acc.1 e.2 loc
  else
    let v := normalizeFieldValue e.1 field.isSequence
    let r := validateField field v loc e.2
    (setKey acc.1 field.name r.1, r.2)

/-- `_request_body_to_args`: embed-wrap the body using the first descriptor,
then fold the per-field step.  (The caller guards `required_params`
non-empty; on `[]` the Python indexing would fail, we return the empty
result.) -/
def requestBodyToArgs (requiredParams : List ModelField)
    (receivedBody : Value) : ValueMap × List Err :=
  match requiredParams with
  | [] => ([], [])
  | field0 :: _ =>
      let eb := getEmbedBody field0 requiredParams receivedBody
      requiredParams.foldl (bodyStep eb.1 eb.2) ([], [])

/-- `_process_scalar_param`: `input_dict[alias]` (a `KeyError` is ignored);
a single-element list value is replaced by its element. -/
def processScalarParam (inputDict : ValueMap) (param : ModelField) : ValueMap :=
  match lookupMap inputDict param.aliasName with
  | some (Value.list [x]) => setKey inputDict param.aliasName x
  | some _ => inputDict
  | none => inputDict

/-- `_get_param_value`: the alias lookup wins when it is not `None`; only
when the model config allows populate-by-name is the plain field name tried
as a fallback. -/
def getParamValue (inputDict : ValueMap) (fieldAlias fieldName : String)
    (populateByName : Bool) : Value :=
  let value := getOrNone inputDict fieldAlias
  if !value.isNull then value
  else if populateByName then getOrNone inputDict fieldName
  else value

/-- The loop body of `_process_model_param`: sub-fields whose looked-up
value is not `None` are normalized and stored in the model dict under their
alias. -/
def modelFieldStep (inputDict : ValueMap) (populateByName : Bool)
    (acc : ValueMap) (f : String × SubFieldInfo) : ValueMap :=
  let fieldAlias := f.2.aliasOpt.getD f.1
  let value := getParamValue inputDict fieldAlias f.1 populateByName
  if value.isNull then acc
  else setKey acc fieldAlias (normalizeFieldValue value f.2.isSequence)

/-- `_process_model_param`: assemble the nested model dict from the flat map
and store it under the top-level parameter's alias. -/
def processModelParam (inputDict : ValueMap) (param : ModelField) : ValueMap :=
  let modelData := param.modelFields.foldl
    (modelFieldStep inputDict param.populateByName) []
  setKey inputDict param.aliasName (Value.obj modelData)

/-- `_normalize_multi_params`: scalar parameters get the single-element
unwrap, pydantic-model parameters get the nested-model assembly, all other
parameters are left alone. -/
def normalizeMultiParams (inputDict : ValueMap)
    (params : List ModelField) : ValueMap :=
  params.foldl
    (fun acc param =>
      if param.isScalar then processScalarParam acc param
      else if param.isModel then processModelParam acc param
      else acc)
    inputDict

/-- Outcome of `_get_body`: a decoded mapping, a raised
`RequestValidationError` (errors plus the attached offending body), or the
`NotImplementedError` for unsupported media types. -/
inductive GetBodyResult where
  | ok (body : Value)
  | validationError (errors : List Err) (body : Option String)
  | notImplemented

/-- `_parse_json_data`: a JSON decode failure raises a request-validation
error with the single `json_invalid` record at `("body", pos)`, the decoder
message in `ctx`, and the offending document attached. -/
def parseJsonData (ev : RequestEvent) : GetBodyResult :=
  match ev.jsonBody with
  | .ok v => .ok v
  | .error e =>
      .validationError
        [{ type := "json_invalid", loc := [.str "body", .nat e.pos],
           msg := "JSON decode error", input := Value.obj [], ctx := some e.msg }]
        (some e.doc)

/-- `_parse_form_data`: `parse_qs` is library code, so its (list-valued)
result is carried on the event; values stay lists at this stage. -/
def parseFormData (ev : RequestEvent) : GetBodyResult :=
  .ok (Value.obj ev.formParsed)

/-- `_get_body`: dispatch on the stripped content-type header — empty or
JSON-prefixed decodes as JSON, form-prefixed decodes as form data, anything
else is unsupported. -/
def getBody (ev : RequestEvent) : GetBodyResult :=
  let contentType := pyStrip (headerGet ev.headers "content-type")
  if contentType = "" || pyStartsWith contentType "application/json" then
    parseJsonData ev
  else if pyStartsWith contentType "application/x-www-form-urlencoded" then
    parseFormData ev
  else .notImplemented

/-- Outcome of `OpenAPIRequestValidationMiddleware.handler`: the handler is
invoked with the validated arguments, or a `RequestValidationError` (errors
plus attached body) is raised, or a `NotImplementedError` is raised. -/
inductive BindResult where
  | success (handlerArgs : ValueMap)
  | failure (errors : List Err) (body : Option String)
  | unsupported

/-- The tail of `OpenAPIRequestValidationMiddleware.handler` after the three
parameter sources: merge in the body source when present, then raise on a
non-empty error list or hand the merged values to the next middleware. -/
def finishBinding (route : Route) (ev : RequestEvent) (values : ValueMap)
    (errors : List Err) : BindResult :=
  if route.bodyParams.isEmpty then
    if errors.isEmpty then .success values
    else .failure (normalizeErrors errors) none
  else
    match getBody ev with
    | .validationError errs b => .failure errs b
    | .notImplemented => .unsupported
    | .ok body =>
        let r := requestBodyToArgs route.bodyParams body
        let values := updateMap values r.1
        let errors := errors ++ r.2
        if errors.isEmpty then .success values
        else .failure (normalizeErrors errors) none

/-- `OpenAPIRequestValidationMiddleware.handler`: process path args
directly, query and header maps after `_normalize_multi_params`, merge
values and errors in source order, then finish with the body source. -/
def requestHandler (route : Route) (ev : RequestEvent) : BindResult :=
  let pr := requestParamsToArgs route.pathParams ev.routeArgs
  let queryString := normalizeMultiParams ev.resolvedQuery route.queryParams
  let qr := requestParamsToArgs route.queryParams queryString
  let headers := normalizeMultiParams ev.resolvedHeaders route.headerParams
  let hr := requestParamsToArgs route.headerParams headers
  let values := updateMap (updateMap (updateMap [] pr.1) qr.1) hr.1
  let errors := pr.2 ++ qr.2 ++ hr.2
  finishBinding route ev values errors

/-- The error list the handler accumulates over the three parameter
sources, in source order path, query, header (the handler's `errors`
variable just before body processing). -/
def mergedParamErrors (route : Route) (ev : RequestEvent) : List Err :=
  (requestParamsToArgs route.pathParams ev.routeArgs).2
    ++ (requestParamsToArgs route.queryParams
          (normalizeMultiParams ev.resolvedQuery route.queryParams)).2
    ++ (requestParamsToArgs route.headerParams
          (normalizeMultiParams ev.resolvedHeaders route.headerParams)).2

/-- The values map the handler accumulates over the three parameter sources
(the handler's `values` variable just before body processing). -/
def mergedParamValues (route : Route) (ev : RequestEvent) : ValueMap :=
  updateMap
    (updateMap
      (updateMap [] (requestParamsToArgs route.pathParams ev.routeArgs).1)
      (requestParamsToArgs route.queryParams
        (normalizeMultiParams ev.resolvedQuery route.queryParams)).1)
    (requestParamsToArgs route.headerParams
      (normalizeMultiParams ev.resolvedHeaders route.headerParams)).1

/-- Modelled from the spec (`jsonable_encoder` lives in the encoders module,
outside these sources): the general-purpose value-to-wire conversion; our
`Value` already is the wire shape, so the conversion keeps the value. -/
def jsonableEncoder (v : Value) : Value := v

/-- Outcome of `OpenAPIResponseValidationMiddleware._serialize_response`:
the serialized body, a raised `RequestValidationError`, or a raised
`ResponseValidationError` tagged with its `source` (`"route"` or `"app"`). -/
inductive RespResult where
  | ok (body : Value)
  | requestError (errors : List Err) (body : Value)
  | responseError (errors : List Err) (body : Value) (source : String)

/-- `OpenAPIResponseValidationMiddleware._serialize_response`: with a return
descriptor, validate at `("response",)`; on errors the route-level custom
flag takes precedence, then the app-level flag, then the plain
request-validation error; on success serialize with the descriptor.
Without a descriptor, just encode the content. -/
def serializeResponse (returnParam : Option ModelField) (responseContent : Value)
    (hasRouteCustomResponseValidation : Bool)
    (hasResponseValidationError : Bool) : RespResult :=
  match returnParam with
  | some field =>
      let r := validateField field responseContent [.str "response"] []
      if !r.2.isEmpty then
        if hasRouteCustomResponseValidation then
          .responseError (normalizeErrors r.2) responseContent "route"
        else if hasResponseValidationError then
          .responseError (normalizeErrors r.2) responseContent "app"
        else .requestError (normalizeErrors r.2) responseContent
      else .ok (field.serialize r.1)
  | none => .ok (jsonableEncoder responseContent)

/-! Concrete descriptors and events used to instantiate the theorems. -/

/-- A scalar field descriptor whose validation accepts every value
unchanged; used for concrete instances. -/
def mkField (name : String) (src : Source) (req : Bool) : ModelField :=
  { name := name, aliasName := name, required := req, default := Value.null,
    source := src, isSequence := false, isScalar := true, isModel := false,
    modelFields := [], populateByName := false, embed := false,
    validate := fun v _ => (v, []), serialize := fun v => v }

/-- A field descriptor whose validation rejects every value with one
type-error record; used for concrete instances. -/
def rejectField : ModelField :=
  { mkField "r" .query true with
    validate := fun v loc =>
      (v, [{ type := "type_error", loc := loc, msg := "bad value",
             input := v, ctx := none }]) }

/-- An event with empty inputs and a well-formed (empty object) JSON body. -/
def sampleEvent : RequestEvent :=
  { headers := [], jsonBody := .ok (Value.obj []), formParsed := [],
    routeArgs := [], resolvedQuery := [], resolvedHeaders := [] }

/-- An event whose body fails JSON decoding at offset 7. -/
def badJsonEvent : RequestEvent :=
  { sampleEvent with
    headers := [("content-type", "application/json")],
    jsonBody := .error { pos := 7, msg := "Expecting value", doc := "it is not json" } }

/-- A value is a single-element list (the shape `_process_scalar_param`
unwraps). -/
def isSingleList : Value → Bool
  | .list [_] => true
  | _ => false

/-- A flat value: not a list of lists.  Raw query-string and header maps
are flat (their list values hold strings). -/
def flatVal : Value → Bool
  | .list xs => xs.all (fun x => !x.isList)
  | _ => true

/-- A flat raw parameter map: every stored value is flat. -/
def flatDict (m : ValueMap) : Bool :=
  m.all (fun kv => flatVal kv.2)

/-- No binding of `a` in `m` is a single-element list, so the scalar unwrap
at alias `a` has nothing left to do. -/
def noSingle (m : ValueMap) (a : String) : Prop :=
  ∀ v, lookupMap m a = some v → isSingleList v = false

/-!  Theorems.  General association-list and decomposition lemmas first,
then one theorem per specification claim (with witnesses). -/

@[simp] theorem lookupMap_nil (a : String) : lookupMap [] a = none := rfl

@[simp] theorem lookupMap_cons (k : String) (v : Value) (rest : ValueMap) (a : String) :
    lookupMap ((k, v) :: rest) a = if k = a then some v else lookupMap rest a := rfl

/-- Lookup after assignment at the same key yields the assigned value. -/
theorem lookupMap_setKey_self (m : ValueMap) (k : String) (v : Value) :
    lookupMap (setKey m k v) k = some v := by
  induction m with
  | nil => simp [setKey]
  | cons kv rest ih =>
      obtain ⟨k', v'⟩ := kv
      by_cases h : k' = k <;> simp [setKey, h, ih]

/-- Assignment at one key leaves lookups at other keys unchanged. -/
theorem lookupMap_setKey_ne (m : ValueMap) (k a : String) (v : Value) (h : k ≠ a) :
    lookupMap (setKey m k v) a = lookupMap m a := by
  induction m with
  | nil => simp [setKey, h]
  | cons kv rest ih =>
      obtain ⟨k', v'⟩ := kv
      by_cases h' : k' = k
      · subst h'
        simp [setKey, h]
      · simp [setKey, h', ih]

/-- C2: a path/query/header field whose raw value is absent (its alias looks
up to `None`) follows the missing-field policy: a required field contributes
exactly one "missing field" record at `(source, alias)` and binding fails
without invoking the handler; an optional field stores its default under the
field name with no error. -/
theorem c2_missing_field_policy (f : ModelField) (m : ValueMap)
    (habs : getOrNone m f.aliasName = Value.null) :
    (f.required = true →
      requestParamsToArgs [f] m
        = ([], [getMissingFieldError [.str f.source.value, .str f.aliasName]])
      ∧ ∀ ev : RequestEvent, ev.routeArgs = m →
          requestHandler ⟨[f], [], [], []⟩ ev
            = .failure [getMissingFieldError [.str f.source.value, .str f.aliasName]] none)
    ∧ (f.required = false →
      requestParamsToArgs [f] m = ([(f.name, f.default)], [])) := by
  have hnull : (getOrNone m f.aliasName).isNull = true := by
    rw [habs]; rfl
  constructor
  · intro hreq
    constructor
    · simp [requestParamsToArgs, paramStep, hnull, handleMissingFieldValue, hreq]
    · intro ev hev
      simp [requestHandler, finishBinding, requestParamsToArgs, normalizeMultiParams,
        paramStep, hev, hnull, handleMissingFieldValue, hreq, updateMap,
        normalizeErrors]
  · intro hreq
    simp [requestParamsToArgs, paramStep, hnull, handleMissingFieldValue, hreq, setKey]

/-- C2 witness: a required query field `"q"` absent from an empty map. -/
theorem c2_missing_field_policy_witness :
    requestParamsToArgs [mkField "q" .query true] []
      = ([], [getMissingFieldError [.str "query", .str "q"]])
    ∧ requestHandler ⟨[mkField "q" .query true], [], [], []⟩ sampleEvent
      = .failure [getMissingFieldError [.str "query", .str "q"]] none := by
  have h := (c2_missing_field_policy (mkField "q" .query true) [] rfl).1 rfl
  exact ⟨h.1, h.2 sampleEvent rfl⟩

/-- C3 counterexample: body-field normalization does **not** pass a
multi-element list through unchanged for a non-sequence field — it truncates
`[1, 2]` to its first element before validation. -/
theorem c3_counterexample_multi_element_truncated :
    normalizeFieldValue (Value.list [Value.int 1, Value.int 2]) false = Value.int 1
    ∧ Value.int 1 ≠ Value.list [Value.int 1, Value.int 2] :=
  ⟨rfl, by nofun⟩

/-- C3 amended: for a non-sequence field, query/header normalization
(`_process_scalar_param`) unwraps exactly single-element lists and leaves
lists of any other length (and absent keys) unchanged, while body-field
normalization (`_normalize_field_value`) replaces **any** non-empty list by
its first element (so multi-element lists are truncated, not passed
through); empty lists, non-list values, and sequence-typed fields are left
unchanged by both. -/
theorem c3_scalar_unwrap_amended (m : ValueMap) (p : ModelField)
    (v x : Value) (xs : List Value) :
    (lookupMap m p.aliasName = some (Value.list [x]) →
      processScalarParam m p = setKey m p.aliasName x)
    ∧ (lookupMap m p.aliasName = some (Value.list xs) → xs.length ≠ 1 →
      processScalarParam m p = m)
    ∧ (lookupMap m p.aliasName = none → processScalarParam m p = m)
    ∧ (normalizeFieldValue (Value.list (x :: xs)) false = x)
    ∧ (normalizeFieldValue (Value.list []) false = Value.list [])
    ∧ (v.isList = false → normalizeFieldValue v false = v)
    ∧ (normalizeFieldValue v true = v) := by
  refine ⟨?_, ?_, ?_, rfl, rfl, ?_, rfl⟩
  · intro h
    simp [processScalarParam, h]
  · intro h hlen
    rw [processScalarParam, h]
    match xs, hlen with
    | [], _ => rfl
    | _ :: _ :: _, _ => rfl
  · intro h
    simp [processScalarParam, h]
  · intro h
    cases v with
    | list xs => simp [Value.isList] at h
    | null => rfl
    | str s => rfl
    | int n => rfl
    | bool b => rfl
    | obj kvs => rfl

/-- C3 amended witness: unwrap `["7"]`, keep `["7", "8"]`, truncate in the
body normalizer. -/
theorem c3_scalar_unwrap_amended_witness :
    processScalarParam [("q", Value.list [Value.str "7"])] (mkField "q" .query true)
      = [("q", Value.str "7")]
    ∧ processScalarParam [("q", Value.list [Value.str "7", Value.str "8"])]
        (mkField "q" .query true)
      = [("q", Value.list [Value.str "7", Value.str "8"])]
    ∧ normalizeFieldValue (Value.list [Value.str "7", Value.str "8"]) false
      = Value.str "7" := by
  refine ⟨?_, ?_, ?_⟩
  · exact (c3_scalar_unwrap_amended [("q", Value.list [Value.str "7"])]
      (mkField "q" .query true) Value.null (Value.str "7") []).1 rfl
  · exact ((c3_scalar_unwrap_amended [("q", Value.list [Value.str "7", Value.str "8"])]
      (mkField "q" .query true) Value.null Value.null
      [Value.str "7", Value.str "8"]).2.1 rfl (by simp))
  · exact ((c3_scalar_unwrap_amended [] (mkField "q" .query true) Value.null
      (Value.str "7") [Value.str "8"]).2.2.2.1)

/-- With several body fields, or explicit embedding requested, the body is
used as-is and the field alias is not omitted. -/
theorem getEmbedBody_not_omitted (f0 : ModelField) (rest : List ModelField)
    (body : Value) (hnot1 : rest ≠ [] ∨ f0.embed = true) :
    getEmbedBody f0 (f0 :: rest) body = (body, false) := by
  rcases hnot1 with h | h
  · cases rest with
    | nil => exact absurd rfl h
    | cons a l => simp [getEmbedBody]
  · simp [getEmbedBody, h]

/-- C4: with exactly one body field that does not request explicit
embedding, the raw body is wrapped under that field's alias and the error
location is `("body",)`; with several body fields or explicit embedding the
body is used as-is and each field's location is `("body", alias)`. -/
theorem c4_embed_body (f0 : ModelField) (rest : List ModelField)
    (body : Value) (g : ModelField) :
    (rest = [] ∧ f0.embed = false →
      getEmbedBody f0 (f0 :: rest) body = (Value.obj [(f0.aliasName, body)], true)
      ∧ getBodyFieldLocation g true = [.str "body"])
    ∧ (rest ≠ [] ∨ f0.embed = true →
      getEmbedBody f0 (f0 :: rest) body = (body, false)
      ∧ getBodyFieldLocation g false = [.str "body", .str g.aliasName]) := by
  constructor
  · rintro ⟨hrest, hembed⟩
    subst hrest
    simp [getEmbedBody, getBodyFieldLocation, hembed]
  · intro h
    exact ⟨getEmbedBody_not_omitted f0 rest body h, rfl⟩

/-- C4 witness: the single-field wrap and the two-field per-alias case. -/
theorem c4_embed_body_witness :
    getEmbedBody (mkField "item" .query true) [mkField "item" .query true]
        (Value.obj [("a", Value.int 1)])
      = (Value.obj [("item", Value.obj [("a", Value.int 1)])], true)
    ∧ getBodyFieldLocation (mkField "item" .query true) true = [.str "body"]
    ∧ getEmbedBody (mkField "item" .query true)
        [mkField "item" .query true, mkField "other" .query true]
        (Value.obj [("a", Value.int 1)])
      = (Value.obj [("a", Value.int 1)], false)
    ∧ getBodyFieldLocation (mkField "other" .query true) false
      = [.str "body", .str "other"] := by
  have h1 := (c4_embed_body (mkField "item" .query true) []
    (Value.obj [("a", Value.int 1)]) (mkField "item" .query true)).1 ⟨rfl, rfl⟩
  have h2 := (c4_embed_body (mkField "item" .query true) [mkField "other" .query true]
    (Value.obj [("a", Value.int 1)]) (mkField "other" .query true)).2
    (Or.inl (by simp))
  exact ⟨h1.1, h1.2, h2.1, h2.2⟩

/-- C5: when the declared return schema rejects the handler's value, the
error kind follows the strict precedence route-flag, then app-flag, then
plain request-validation error. -/
theorem c5_response_error_precedence (field : ModelField) (content : Value)
    (routeFlag appFlag : Bool)
    (herr : (field.validate content [.str "response"]).2 ≠ []) :
    serializeResponse (some field) content routeFlag appFlag
      = (if routeFlag then
          RespResult.responseError
            (normalizeErrors (regenerateErrorWithLoc
              (field.validate content [.str "response"]).2 [])) content "route"
        else if appFlag then
          RespResult.responseError
            (normalizeErrors (regenerateErrorWithLoc
              (field.validate content [.str "response"]).2 [])) content "app"
        else
          RespResult.requestError
            (normalizeErrors (regenerateErrorWithLoc
              (field.validate content [.str "response"]).2 [])) content) := by
  have hval : (validateField field content [.str "response"] []).2
      = regenerateErrorWithLoc (field.validate content [.str "response"]).2 [] := by
    simp [validateField]
  have hIsE : (validateField field content [.str "response"] []).2.isEmpty = false := by
    rw [hval]
    cases herrs : (field.validate content [.str "response"]).2 with
    | nil => exact absurd herrs herr
    | cons e es => rfl
  rw [hval] at hIsE
  simp only [serializeResponse, hval, hIsE, Bool.not_false, if_true]

/-- C5 witness: a rejecting return descriptor with the route flag set
raises the route-kind response error. -/
theorem c5_response_error_precedence_witness :
    serializeResponse (some rejectField) (Value.int 3) true false
      = RespResult.responseError
          [{ type := "type_error", loc := [.str "response"], msg := "bad value",
             input := Value.int 3, ctx := none }] (Value.int 3) "route" := by
  have h := c5_response_error_precedence rejectField (Value.int 3) true false
    (by simp [rejectField, mkField])
  simpa [rejectField, mkField, normalizeErrors, regenerateErrorWithLoc] using h

/-- C6: an absent or JSON content type with an undecodable body makes the
Body Extractor fail with the single `json_invalid` record located at
`("body", offset)`, carrying the decoder message and the offending text. -/
theorem c6_json_decode_error (ev : RequestEvent) (e : JsonDecodeError)
    (hct : pyStrip (headerGet ev.headers "content-type") = ""
      ∨ pyStartsWith (pyStrip (headerGet ev.headers "content-type"))
          "application/json" = true)
    (hjson : ev.jsonBody = .error e) :
    getBody ev = .validationError
      [{ type := "json_invalid", loc := [.str "body", .nat e.pos],
         msg := "JSON decode error", input := Value.obj [], ctx := some e.msg }]
      (some e.doc) := by
  rw [getBody]
  rcases hct with h | h <;>
    simp [h, parseJsonData, hjson]

/-- C6 witness: a JSON-typed request whose body fails decoding at offset 7. -/
theorem c6_json_decode_error_witness :
    getBody badJsonEvent = .validationError
      [{ type := "json_invalid", loc := [.str "body", .nat 7],
         msg := "JSON decode error", input := Value.obj [], ctx := some "Expecting value" }]
      (some "it is not json") :=
  c6_json_decode_error badJsonEvent
    { pos := 7, msg := "Expecting value", doc := "it is not json" }
    (Or.inr (by decide)) rfl

/-- The per-field step reads the received map only through `get`. -/
theorem paramStep_congr (m₁ m₂ : ValueMap)
    (h : ∀ a, getOrNone m₁ a = getOrNone m₂ a)
    (acc : ValueMap × List Err) (f : ModelField) :
    paramStep m₁ acc f = paramStep m₂ acc f := by
  simp only [paramStep, h f.aliasName]

/-- Parameter binding reads the received map only through `get`: maps that
agree through `get` on every key bind identically. -/
theorem requestParamsToArgs_congr (fields : List ModelField) (m₁ m₂ : ValueMap)
    (h : ∀ a, getOrNone m₁ a = getOrNone m₂ a) :
    requestParamsToArgs fields m₁ = requestParamsToArgs fields m₂ := by
  rw [requestParamsToArgs, requestParamsToArgs]
  generalize ([], []) = acc
  induction fields generalizing acc with
  | nil => rfl
  | cons f rest ih =>
      rw [List.foldl_cons, List.foldl_cons, paramStep_congr m₁ m₂ h acc f]
      exact ih _

/-- A binding of `None` for a key not bound elsewhere is invisible to
`get`. -/
theorem getOrNone_cons_null (k : String) (m : ValueMap)
    (hk : lookupMap m k = none) (a : String) :
    getOrNone ((k, Value.null) :: m) a = getOrNone m a := by
  by_cases hak : k = a
  · subst hak
    simp [getOrNone, hk]
  · simp [getOrNone, hak]

/-- C10: the missing-field policy triggers exactly on a `None` lookup, so an
entry explicitly bound to `None` binds exactly like an absent entry, both
for path/query/header parameter binding and for the nested-model sub-field
lookup; the sub-field alias→name fallback fires exactly when the alias
lookup yields `None`. -/
theorem c10_null_means_absent :
    (∀ (fields : List ModelField) (k : String) (m : ValueMap),
      lookupMap m k = none →
      requestParamsToArgs fields ((k, Value.null) :: m)
        = requestParamsToArgs fields m)
    ∧ (∀ (k : String) (m : ValueMap) (a n : String) (pbn : Bool),
      lookupMap m k = none →
      getParamValue ((k, Value.null) :: m) a n pbn = getParamValue m a n pbn)
    ∧ (∀ (m : ValueMap) (a n : String),
      getParamValue m a n true
        = if (getOrNone m a).isNull then getOrNone m n else getOrNone m a) := by
  refine ⟨?_, ?_, ?_⟩
  · intro fields k m hk
    exact requestParamsToArgs_congr fields _ _ (getOrNone_cons_null k m hk)
  · intro k m a n pbn hk
    rw [getParamValue, getParamValue, getOrNone_cons_null k m hk a,
      getOrNone_cons_null k m hk n]
  · intro m a n
    rw [getParamValue]
    cases h : (getOrNone m a).isNull <;> simp [h]

/-- C10 witness: a query map binding `"q"` to `None` binds like the empty
map. -/
theorem c10_null_means_absent_witness :
    requestParamsToArgs [mkField "q" .query true] [("q", Value.null)]
      = requestParamsToArgs [mkField "q" .query true] [] :=
  c10_null_means_absent.1 [mkField "q" .query true] "q" [] rfl

/-- The handler is the three-source accumulation followed by
`finishBinding`. -/
theorem requestHandler_eq (route : Route) (ev : RequestEvent) :
    requestHandler route ev
      = finishBinding route ev (mergedParamValues route ev)
          (mergedParamErrors route ev) := rfl

/-- `finishBinding` with no body fields: raise exactly when the aggregated
list is non-empty. -/
theorem finishBinding_no_body (route : Route) (ev : RequestEvent)
    (values : ValueMap) (errors : List Err) (hb : route.bodyParams = []) :
    finishBinding route ev values errors
      = if errors.isEmpty then .success values
        else .failure (normalizeErrors errors) none := by
  simp [finishBinding, hb]

/-- `finishBinding` with body fields and a decodable body: append the body
source and raise exactly when the aggregated list is non-empty. -/
theorem finishBinding_ok_body (route : Route) (ev : RequestEvent)
    (values : ValueMap) (errors : List Err) (b : Value)
    (hb : route.bodyParams ≠ []) (hok : getBody ev = .ok b) :
    finishBinding route ev values errors
      = if (errors ++ (requestBodyToArgs route.bodyParams b).2).isEmpty then
          .success (updateMap values (requestBodyToArgs route.bodyParams b).1)
        else
          .failure (normalizeErrors (errors ++ (requestBodyToArgs route.bodyParams b).2))
            none := by
  have hbe : route.bodyParams.isEmpty = false := by
    cases h : route.bodyParams with
    | nil => exact absurd h hb
    | cons _ _ => rfl
  simp [finishBinding, hbe, hok]

/-- `finishBinding` with body fields and a failing body decode: the raised
error is the decoder's, whatever was accumulated before. -/
theorem finishBinding_bad_body (route : Route) (ev : RequestEvent)
    (values : ValueMap) (errors : List Err) (errs : List Err) (b : Option String)
    (hb : route.bodyParams ≠ []) (hbad : getBody ev = .validationError errs b) :
    finishBinding route ev values errors = .failure errs b := by
  have hbe : route.bodyParams.isEmpty = false := by
    cases h : route.bodyParams with
    | nil => exact absurd h hb
    | cons _ _ => rfl
  simp [finishBinding, hbe, hbad]

/-- C1: the Request Binder merges the per-source error lists in source
order path, query, header, body, and raises a single request-validation
error carrying the full normalized list exactly when that merged list is
non-empty (so field-level errors in one source never hide another source's
errors), invoking the handler with the merged values exactly otherwise.
Stated for requests whose body decodes (or that declare no body fields):
a body that fails decoding is fatal on its own, see the C8 theorems. -/
theorem c1_binder_aggregates_sources (route : Route) (ev : RequestEvent) :
    (route.bodyParams = [] →
      (mergedParamErrors route ev ≠ [] →
        requestHandler route ev
          = .failure (normalizeErrors (mergedParamErrors route ev)) none)
      ∧ (mergedParamErrors route ev = [] →
        requestHandler route ev = .success (mergedParamValues route ev)))
    ∧ (∀ b : Value, route.bodyParams ≠ [] → getBody ev = .ok b →
      (mergedParamErrors route ev ++ (requestBodyToArgs route.bodyParams b).2 ≠ [] →
        requestHandler route ev
          = .failure (normalizeErrors
              (mergedParamErrors route ev ++ (requestBodyToArgs route.bodyParams b).2))
              none)
      ∧ (mergedParamErrors route ev ++ (requestBodyToArgs route.bodyParams b).2 = [] →
        requestHandler route ev
          = .success (updateMap (mergedParamValues route ev)
              (requestBodyToArgs route.bodyParams b).1))) := by
  constructor
  · intro hb
    rw [requestHandler_eq, finishBinding_no_body route ev _ _ hb]
    constructor
    · intro hne
      have : (mergedParamErrors route ev).isEmpty = false := by
        cases h : mergedParamErrors route ev with
        | nil => exact absurd h hne
        | cons _ _ => rfl
      simp [this]
    · intro he
      simp [he]
  · intro b hb hok
    rw [requestHandler_eq, finishBinding_ok_body route ev _ _ b hb hok]
    constructor
    · intro hne
      have : (mergedParamErrors route ev ++ (requestBodyToArgs route.bodyParams b).2).isEmpty
          = false := by
        cases h : mergedParamErrors route ev ++ (requestBodyToArgs route.bodyParams b).2 with
        | nil => exact absurd h hne
        | cons _ _ => rfl
      simp [this]
    · intro he
      simp [he]

/-- C1 witness: a route with a required path field and a required body
field, a request providing neither: both sources' errors are aggregated, in
order, and the handler is not invoked. -/
theorem c1_binder_aggregates_sources_witness :
    requestHandler
        ⟨[mkField "id" .path true], [], [], [mkField "name" .query true, mkField "age" .query true]⟩
        sampleEvent
      = .failure
          [getMissingFieldError [.str "path", .str "id"],
           getMissingFieldError [.str "body", .str "name"],
           getMissingFieldError [.str "body", .str "age"]] none := by
  have hval : mergedParamErrors
        ⟨[mkField "id" .path true], [], [],
          [mkField "name" .query true, mkField "age" .query true]⟩ sampleEvent
      ++ (requestBodyToArgs [mkField "name" .query true, mkField "age" .query true]
            (Value.obj [])).2
      = [getMissingFieldError [.str "path", .str "id"],
         getMissingFieldError [.str "body", .str "name"],
         getMissingFieldError [.str "body", .str "age"]] := rfl
  have hne : mergedParamErrors
        ⟨[mkField "id" .path true], [], [],
          [mkField "name" .query true, mkField "age" .query true]⟩ sampleEvent
      ++ (requestBodyToArgs [mkField "name" .query true, mkField "age" .query true]
            (Value.obj [])).2 ≠ [] := by
    rw [hval]
    simp
  have h := ((c1_binder_aggregates_sources
    ⟨[mkField "id" .path true], [], [],
      [mkField "name" .query true, mkField "age" .query true]⟩ sampleEvent).2
    (Value.obj []) (by simp) rfl).1 hne
  exact h

/-- C8 counterexample: a request with a missing required query field AND a
malformed JSON body does **not** surface both errors — the decode failure is
raised on its own and the query source's "missing" error is dropped. -/
theorem c8_counterexample_malformed_body_hides_query_error :
    requestHandler
        ⟨[], [mkField "q" .query true], [], [mkField "name" .query true]⟩
        badJsonEvent
      = .failure
          [{ type := "json_invalid", loc := [.str "body", .nat 7],
             msg := "JSON decode error", input := Value.obj [],
             ctx := some "Expecting value" }]
          (some "it is not json")
    ∧ getMissingFieldError [.str "query", .str "q"]
        ∉ [{ type := "json_invalid", loc := [.str "body", .nat 7],
             msg := "JSON decode error", input := Value.obj [],
             ctx := some "Expecting value" : Err }] := by
  refine ⟨rfl, ?_⟩
  simp [getMissingFieldError]

/-- C8 amended: errors within the four field-validation sources are
aggregated into one list in source order path, query, header, body; but a
body that fails decoding is fatal on its own — the binder then fails with
only the decoder's error and the field errors of the other sources are
discarded. -/
theorem c8_error_aggregation_amended :
    (∀ (route : Route) (ev : RequestEvent) (b : Value),
      route.bodyParams ≠ [] → getBody ev = .ok b →
      mergedParamErrors route ev ++ (requestBodyToArgs route.bodyParams b).2 ≠ [] →
      requestHandler route ev
        = .failure (normalizeErrors
            (mergedParamErrors route ev ++ (requestBodyToArgs route.bodyParams b).2))
            none)
    ∧ (∀ (route : Route) (ev : RequestEvent) (errs : List Err) (b : Option String),
      route.bodyParams ≠ [] → getBody ev = .validationError errs b →
      requestHandler route ev = .failure errs b) := by
  constructor
  · intro route ev b hb hok hne
    rw [requestHandler_eq, finishBinding_ok_body route ev _ _ b hb hok]
    have : (mergedParamErrors route ev ++ (requestBodyToArgs route.bodyParams b).2).isEmpty
        = false := by
      cases h : mergedParamErrors route ev ++ (requestBodyToArgs route.bodyParams b).2 with
      | nil => exact absurd h hne
      | cons _ _ => rfl
    simp [this]
  · intro route ev errs b hb hbad
    rw [requestHandler_eq]
    exact finishBinding_bad_body route ev _ _ errs b hb hbad

/-- C8 amended witness: one aggregated multi-source failure (a query field
and two body fields all missing, reported together in source order) and one
immediate malformed-body failure. -/
theorem c8_error_aggregation_amended_witness :
    requestHandler
        ⟨[], [mkField "q" .query true], [],
          [mkField "name" .query true, mkField "age" .query true]⟩
        sampleEvent
      = .failure
          [getMissingFieldError [.str "query", .str "q"],
           getMissingFieldError [.str "body", .str "name"],
           getMissingFieldError [.str "body", .str "age"]] none
    ∧ requestHandler
        ⟨[], [mkField "q" .query true], [], [mkField "name" .query true]⟩
        badJsonEvent
      = .failure
          [{ type := "json_invalid", loc := [.str "body", .nat 7],
             msg := "JSON decode error", input := Value.obj [],
             ctx := some "Expecting value" }]
          (some "it is not json") := by
  constructor
  · have hval : mergedParamErrors
          ⟨[], [mkField "q" .query true], [],
            [mkField "name" .query true, mkField "age" .query true]⟩ sampleEvent
        ++ (requestBodyToArgs [mkField "name" .query true, mkField "age" .query true]
              (Value.obj [])).2
        = [getMissingFieldError [.str "query", .str "q"],
           getMissingFieldError [.str "body", .str "name"],
           getMissingFieldError [.str "body", .str "age"]] := rfl
    have hne : mergedParamErrors
          ⟨[], [mkField "q" .query true], [],
            [mkField "name" .query true, mkField "age" .query true]⟩ sampleEvent
        ++ (requestBodyToArgs [mkField "name" .query true, mkField "age" .query true]
              (Value.obj [])).2 ≠ [] := by
      rw [hval]
      simp
    exact c8_error_aggregation_amended.1
      ⟨[], [mkField "q" .query true], [],
        [mkField "name" .query true, mkField "age" .query true]⟩
      sampleEvent (Value.obj []) (by simp) rfl hne
  · exact c8_error_aggregation_amended.2
      ⟨[], [mkField "q" .query true], [], [mkField "name" .query true]⟩
      badJsonEvent _ _ (by simp) rfl

/-- A body value that is neither `None` nor a mapping makes every per-alias
extraction fail into a "missing field" record instead of an exception. -/
theorem extract_non_mapping (f : ModelField) (body : Value) (loc : Loc)
    (errs : List Err) (hobj : body.isObj = false) (hnull : body.isNull = false) :
    extractFieldValueFromBody f body loc errs
      = (.null, errs ++ [getMissingFieldError loc]) := by
  cases body <;> simp_all [extractFieldValueFromBody, Value.isObj, Value.isNull]

/-- Folding the body step over any field list with a non-mapping body:
optional fields collect their defaults, and every field contributes its
"missing field" record(s) in declaration order. -/
theorem foldl_bodyStep_non_mapping (body : Value)
    (hobj : body.isObj = false) (hnull : body.isNull = false) :
    ∀ (fields : List ModelField) (vals : ValueMap) (errs : List Err),
    List.foldl (bodyStep body false) (vals, errs) fields
      = (fields.foldl
          (fun acc f => if f.required then acc else setKey acc f.name f.default) vals,
         errs ++ fields.flatMap (fun f =>
           getMissingFieldError [.str "body", .str f.aliasName]
             :: if f.required then
                  [getMissingFieldError [.str "body", .str f.aliasName]]
                else [])) := by
  intro fields
  induction fields with
  | nil => intro vals errs; simp
  | cons f fs ih =>
      intro vals errs
      have hstep : bodyStep body false (vals, errs) f
          = (if f.required then vals else setKey vals f.name f.default,
             errs ++ (getMissingFieldError [.str "body", .str f.aliasName]
               :: if f.required then
                    [getMissingFieldError [.str "body", .str f.aliasName]]
                  else [])) := by
        have hx := extract_non_mapping f body [.str "body", .str f.aliasName] errs hobj hnull
        cases hr : f.required <;>
          simp [bodyStep, getBodyFieldLocation, hx, Value.isNull,
            handleMissingFieldValue, hr]
      rw [List.foldl_cons, hstep, ih]
      cases hr : f.required <;> simp [hr]

/-- C9: when the decoded body is not a mapping (and body fields are
addressed per alias, so no embed wrap restores a mapping), every body
field's extraction failure becomes "missing field" error record(s) at that
field's `("body", alias)` location, binding continues over all remaining
fields (optional ones still receive their defaults), and no exception
escapes — the fold is total. -/
theorem c9_non_mapping_body (f0 : ModelField) (rest : List ModelField)
    (body : Value) (hnot1 : rest ≠ [] ∨ f0.embed = true)
    (hobj : body.isObj = false) (hnull : body.isNull = false) :
    requestBodyToArgs (f0 :: rest) body
      = ((f0 :: rest).foldl
          (fun acc f => if f.required then acc else setKey acc f.name f.default) [],
         (f0 :: rest).flatMap (fun f =>
           getMissingFieldError [.str "body", .str f.aliasName]
             :: if f.required then
                  [getMissingFieldError [.str "body", .str f.aliasName]]
                else [])) := by
  have hembed : getEmbedBody f0 (f0 :: rest) body = (body, false) :=
    getEmbedBody_not_omitted f0 rest body hnot1
  rw [requestBodyToArgs]
  simp only [hembed]
  simpa using foldl_bodyStep_non_mapping body hobj hnull (f0 :: rest) [] []

/-- C9 witness: two body fields against an integer body — two "missing"
records for the required field, one plus the default for the optional. -/
theorem c9_non_mapping_body_witness :
    requestBodyToArgs [mkField "a" .query true, mkField "b" .query false] (Value.int 5)
      = ([("b", Value.null)],
         [getMissingFieldError [.str "body", .str "a"],
          getMissingFieldError [.str "body", .str "a"],
          getMissingFieldError [.str "body", .str "b"]]) := by
  have h := c9_non_mapping_body (mkField "a" .query true) [mkField "b" .query false]
    (Value.int 5) (Or.inl (by simp)) rfl rfl
  exact h

/-- A non-list value is flat. -/
theorem flatVal_of_not_isList (v : Value) (h : v.isList = false) : flatVal v = true := by
  cases v <;> simp_all [flatVal, Value.isList]

/-- A non-list value is not a single-element list. -/
theorem isSingleList_eq_false_of_not_isList (v : Value) (h : v.isList = false) :
    isSingleList v = false := by
  cases v with
  | list xs => simp [Value.isList] at h
  | null => rfl
  | str s => rfl
  | int n => rfl
  | bool b => rfl
  | obj kvs => rfl

/-- Values looked up in a flat map are flat. -/
theorem flatVal_of_lookup (m : ValueMap) (a : String) (v : Value)
    (hm : flatDict m = true) (hl : lookupMap m a = some v) : flatVal v = true := by
  induction m with
  | nil => simp at hl
  | cons kv rest ih =>
      obtain ⟨k, w⟩ := kv
      simp only [flatDict, List.all_cons, Bool.and_eq_true] at hm
      by_cases hk : k = a
      · rw [lookupMap_cons, if_pos hk] at hl
        cases hl
        exact hm.1
      · rw [lookupMap_cons, if_neg hk] at hl
        exact ih hm.2 hl

/-- Assigning a flat value into a flat map keeps it flat. -/
theorem flatDict_setKey (m : ValueMap) (k : String) (v : Value)
    (hm : flatDict m = true) (hv : flatVal v = true) :
    flatDict (setKey m k v) = true := by
  induction m with
  | nil => simp [setKey, flatDict, hv]
  | cons kv rest ih =>
      obtain ⟨k', w⟩ := kv
      simp only [flatDict, List.all_cons, Bool.and_eq_true] at hm
      by_cases hk : k' = k
      · simp [setKey, hk, flatDict, List.all_cons, hv, hm.2]
      · simp only [setKey, if_neg hk, flatDict, List.all_cons, Bool.and_eq_true]
        exact ⟨hm.1, ih hm.2⟩

/-- A value is a single-element list exactly when it has that shape. -/
theorem isSingleList_iff (v : Value) :
    isSingleList v = true ↔ ∃ x, v = Value.list [x] := by
  rcases v with _ | s | n | b | (_ | ⟨x, _ | ⟨y, r⟩⟩) | kvs <;>
    simp [isSingleList]

/-- The scalar unwrap either does nothing (no single-element list is bound
at the alias) or replaces the bound single-element list by its element. -/
theorem processScalarParam_cases (m : ValueMap) (p : ModelField) :
    (processScalarParam m p = m
      ∧ ∀ x, lookupMap m p.aliasName ≠ some (Value.list [x]))
    ∨ ∃ x, lookupMap m p.aliasName = some (Value.list [x])
        ∧ processScalarParam m p = setKey m p.aliasName x := by
  cases hl : lookupMap m p.aliasName with
  | none =>
      refine Or.inl ⟨?_, by simp [hl]⟩
      rw [processScalarParam, hl]
  | some v =>
      rcases v with _ | s | n | b | (_ | ⟨x, _ | ⟨y, r⟩⟩) | kvs
      case list.cons.nil =>
        refine Or.inr ⟨x, rfl, ?_⟩
        rw [processScalarParam, hl]
      all_goals
        refine Or.inl ⟨?_, by simp [hl]⟩
        rw [processScalarParam, hl]

/-- The scalar unwrap keeps a flat map flat. -/
theorem flatDict_processScalarParam (m : ValueMap) (p : ModelField)
    (hm : flatDict m = true) : flatDict (processScalarParam m p) = true := by
  rcases processScalarParam_cases m p with ⟨heq, _⟩ | ⟨x, hl, heq⟩
  · rw [heq]; exact hm
  · rw [heq]
    have hfv := flatVal_of_lookup m p.aliasName _ hm hl
    simp only [flatVal, List.all_cons, List.all_nil, Bool.and_true] at hfv
    exact flatDict_setKey m p.aliasName x hm
      (flatVal_of_not_isList x (by simpa using hfv))

/-- After the scalar unwrap, the parameter's alias holds no single-element
list in a flat map. -/
theorem noSingle_processScalarParam (m : ValueMap) (p : ModelField)
    (hm : flatDict m = true) : noSingle (processScalarParam m p) p.aliasName := by
  rcases processScalarParam_cases m p with ⟨heq, hno⟩ | ⟨x, hl, heq⟩
  · rw [heq]
    intro w hw
    cases hsw : isSingleList w with
    | false => rfl
    | true =>
        obtain ⟨y, rfl⟩ := (isSingleList_iff w).mp hsw
        exact absurd hw (hno y)
  · rw [heq]
    intro w hw
    rw [lookupMap_setKey_self] at hw
    cases hw
    have hfv := flatVal_of_lookup m p.aliasName _ hm hl
    simp only [flatVal, List.all_cons, List.all_nil, Bool.and_true] at hfv
    exact isSingleList_eq_false_of_not_isList x (by simpa using hfv)

/-- The scalar unwrap at one alias cannot re-create a single-element list
at any alias. -/
theorem noSingle_processScalarParam_preserve (m : ValueMap) (p : ModelField)
    (a : String) (hm : flatDict m = true) (hns : noSingle m a) :
    noSingle (processScalarParam m p) a := by
  by_cases hpa : p.aliasName = a
  · subst hpa
    exact noSingle_processScalarParam m p hm
  · rcases processScalarParam_cases m p with ⟨heq, _⟩ | ⟨x, hl, heq⟩
    · rw [heq]; exact hns
    · rw [heq]
      intro w hw
      rw [lookupMap_setKey_ne m p.aliasName a x hpa] at hw
      exact hns w hw

/-- The scalar unwrap is a no-op at an alias with no single-element list. -/
theorem processScalarParam_noop (m : ValueMap) (p : ModelField)
    (hns : noSingle m p.aliasName) : processScalarParam m p = m := by
  rcases processScalarParam_cases m p with ⟨heq, _⟩ | ⟨x, hl, heq⟩
  · exact heq
  · have := hns _ hl
    simp [isSingleList] at this

/-- One scalar step of the normalizer. -/
theorem normalizeMultiParams_cons_scalar (m : ValueMap) (p : ModelField)
    (ps : List ModelField) (hp : p.isScalar = true) :
    normalizeMultiParams m (p :: ps)
      = normalizeMultiParams (processScalarParam m p) ps := by
  simp [normalizeMultiParams, hp]

/-- After one full scalar pass over a flat map, the map is flat, no new
single-element lists exist anywhere, and every parameter's alias is fully
unwrapped. -/
theorem normalizeMultiParams_scalar_invariant :
    ∀ (params : List ModelField) (m : ValueMap), flatDict m = true →
      (∀ p ∈ params, p.isScalar = true) →
      flatDict (normalizeMultiParams m params) = true
      ∧ (∀ a, noSingle m a → noSingle (normalizeMultiParams m params) a)
      ∧ (∀ p ∈ params, noSingle (normalizeMultiParams m params) p.aliasName) := by
  intro params
  induction params with
  | nil =>
      intro m hm _
      exact ⟨hm, fun a h => h, by simp⟩
  | cons p ps ih =>
      intro m hm hsc
      have hp : p.isScalar = true := hsc p (by simp)
      have hps : ∀ q ∈ ps, q.isScalar = true := fun q hq => hsc q (by simp [hq])
      rw [normalizeMultiParams_cons_scalar m p ps hp]
      have hm1 : flatDict (processScalarParam m p) = true :=
        flatDict_processScalarParam m p hm
      obtain ⟨hf, hpres, hmem⟩ := ih (processScalarParam m p) hm1 hps
      refine ⟨hf, ?_, ?_⟩
      · intro a hns
        exact hpres a (noSingle_processScalarParam_preserve m p a hm hns)
      · intro q hq
        rcases List.mem_cons.mp hq with h | h
        · subst h
          exact hpres q.aliasName (noSingle_processScalarParam m q hm)
        · exact hmem q h

/-- A scalar pass is a no-op when every parameter's alias is already
unwrapped. -/
theorem normalizeMultiParams_scalar_noop :
    ∀ (params : List ModelField) (m : ValueMap),
      (∀ p ∈ params, p.isScalar = true) →
      (∀ p ∈ params, noSingle m p.aliasName) →
      normalizeMultiParams m params = m := by
  intro params
  induction params with
  | nil => intro m _ _; rfl
  | cons p ps ih =>
      intro m hsc hns
      rw [normalizeMultiParams_cons_scalar m p ps (hsc p (by simp)),
        processScalarParam_noop m p (hns p (by simp))]
      exact ih m (fun q hq => hsc q (by simp [hq])) (fun q hq => hns q (by simp [hq]))

/-- C7 counterexample: normalization is **not** idempotent on every raw
map — a nested single-element list `[[1]]` is unwrapped once per pass, so
the second pass changes the first pass's output. -/
theorem c7_counterexample_normalize_not_idempotent :
    normalizeMultiParams
        (normalizeMultiParams [("q", Value.list [Value.list [Value.int 1]])]
          [mkField "q" .query true])
        [mkField "q" .query true]
      ≠ normalizeMultiParams [("q", Value.list [Value.list [Value.int 1]])]
          [mkField "q" .query true] := by
  intro h
  have h1 : normalizeMultiParams [("q", Value.list [Value.list [Value.int 1]])]
      [mkField "q" .query true] = [("q", Value.list [Value.int 1])] := rfl
  have h2 : normalizeMultiParams
      (normalizeMultiParams [("q", Value.list [Value.list [Value.int 1]])]
        [mkField "q" .query true])
      [mkField "q" .query true] = [("q", Value.int 1)] := rfl
  rw [h2, h1] at h
  simp at h

/-- C7 amended: restricted to scalar-field parameter lists and flat raw
maps (no stored list contains a list, the shape query-string and header
parsing produce), the Parameter Normalizer is idempotent: a second pass
over its own output changes nothing. -/
theorem c7_scalar_idempotent_amended (params : List ModelField) (m : ValueMap)
    (hsc : ∀ p ∈ params, p.isScalar = true) (hm : flatDict m = true) :
    normalizeMultiParams (normalizeMultiParams m params) params
      = normalizeMultiParams m params := by
  obtain ⟨_, _, hmem⟩ := normalizeMultiParams_scalar_invariant params m hm hsc
  exact normalizeMultiParams_scalar_noop params _ hsc hmem

/-- C7 amended witness: a flat two-entry query map with one wrapped and one
bare value. -/
theorem c7_scalar_idempotent_amended_witness :
    normalizeMultiParams
        (normalizeMultiParams
          [("a", Value.list [Value.str "1"]), ("b", Value.str "2")]
          [mkField "a" .query true, mkField "b" .query false])
        [mkField "a" .query true, mkField "b" .query false]
      = normalizeMultiParams
          [("a", Value.list [Value.str "1"]), ("b", Value.str "2")]
          [mkField "a" .query true, mkField "b" .query false] :=
  c7_scalar_idempotent_amended
    [mkField "a" .query true, mkField "b" .query false]
    [("a", Value.list [Value.str "1"]), ("b", Value.str "2")]
    (by decide) (by decide)

end OpenAPIValidation
